import Mathlib

/-!
Verification of the change-capture iterator subsystem of the HubSpot
connector (packages `iterator` and `hubspot` of the source repository).

Modelling conventions:
* Instants (`time.Time`) are modelled as `Int`, the number of milliseconds
  since the Unix epoch.  The repository works at millisecond granularity
  (the CDC watermark shift is `time.Millisecond`, search filters use
  `UnixMilli`).  Go's `Time.Unix()` (seconds, rounded towards minus
  infinity) is `goUnixSec`.
* JSON values are modelled by the inductive `Json`.  The byte/text layer of
  `encoding/json` is an out-of-scope collaborator (spec section 1), so
  positions travel as `Json` trees plus the two non-JSON byte shapes that
  `ParsePosition` distinguishes (`RawPosition`).  An RFC3339 date-time
  string carrying the instant `t` is modelled by the token `Json.time t`,
  kept distinct from other strings `Json.str s` (which stand for strings
  that do not parse as RFC3339 date-times).
* Channels, goroutines and the polling ticker are concurrency; the record
  channel is modelled as the list of queued records, and each load step is
  the corresponding pure state transformer.  The HTTP client is modelled
  by an environment `Env` mapping each client call to its response.
-/

/-- A JSON value.  `time t` is an RFC3339 date-time string denoting the
instant `t` (milliseconds since epoch); `str s` is any other string. -/
inductive Json where
  | null : Json
  | bool (b : Bool) : Json
  | num (n : Int) : Json
  | str (s : String) : Json
  | time (t : Int) : Json
  | arr (elems : List Json) : Json
  | obj (fields : List (String × Json)) : Json

/-- Whether a JSON value is the literal `null`. -/
def Json.isNull : Json → Bool
  | .null => true
  | _ => false

/-- The field list of a JSON object (empty for non-objects). -/
def Json.objFields : Json → List (String × Json)
  | .obj fields => fields
  | _ => []

/-- Field lookup in a decoded JSON object.  On duplicate keys
`encoding/json` lets the last occurrence win. -/
def findField : List (String × Json) → String → Option Json
  | [], _ => none
  | (k, v) :: rest, name =>
    match findField rest name with
    | some v2 => some v2
    | none => if k = name then some v else none

/-- Go's `Time.Unix()`: whole seconds since the epoch, rounded towards
minus infinity, for an instant given in milliseconds. -/
def goUnixSec (t : Int) : Int := Int.fdiv t 1000

/-- Decimal digits to a number; `none` on the empty list or any
non-digit. -/
def digitsToNat : List Char → Option Nat
  | [] => none
  | cs => go cs 0
where go : List Char → Nat → Option Nat
  | [], acc => some acc
  | c :: rest, acc => if c.isDigit then go rest (acc * 10 + (c.toNat - 48)) else none

/-- `strconv.Atoi`: an optional sign followed by at least one decimal
digit (machine-size overflow is not modelled). -/
def atoi (s : String) : Option Int :=
  match s.data with
  | '-' :: rest => (digitsToNat rest).map (fun n => -(n : Int))
  | '+' :: rest => (digitsToNat rest).map (fun n => (n : Int))
  | l => (digitsToNat l).map (fun n => (n : Int))

namespace position

/-!
Embedding of `src/source/iterator/position.go` (the `opencdc`-based
version: `ItemID` is a string) and of the sentinel error from the
iterator package's errors file.
-/

/-- `SnapshotPositionMode` — a snapshot position mode. -/
def SnapshotPositionMode : String := "snapshot"

/-- `CDCPositionMode` — a CDC position mode. -/
def CDCPositionMode : String := "cdc"

/-- `Position` from `src/source/iterator/position.go`: mode, the last
processed item's id, and two optional timestamps.  Go's nil pointers are
`Option.none`; the zero value of `ItemID` is the empty string. -/
structure Position where
  mode : String
  itemID : String
  initialTimestamp : Option Int
  timestamp : Option Int
deriving DecidableEq, Repr

/-- The bytes handed to `ParsePosition` (`opencdc.Position`), at the
granularity the function distinguishes: a zero-length slice, non-empty
bytes that do not decode as a JSON value, or non-empty bytes decoding to
the JSON value `j`.  The byte encoding of a JSON value itself is the
out-of-scope `encoding/json` text layer. -/
inductive RawPosition where
  | empty : RawPosition
  | text (bytes : String) : RawPosition
  | value (j : Json) : RawPosition

/-- The two error kinds `ParsePosition` can produce: the sentinel
`ErrEmptyPosition` and the generic wrapped `json.Unmarshal` error. -/
inductive ParseError where
  | emptyPosition : ParseError
  | unmarshal (msg : String) : ParseError
deriving DecidableEq, Repr

/-- `json.Marshal` of a `Position`, at the JSON-value level: `mode` is
always emitted; `itemId` carries `omitempty` (dropped when it is the zero
string); the two `*time.Time` fields are dropped when nil and otherwise
emitted as RFC3339 strings. -/
def Position.marshalJson (p : Position) : Json :=
  .obj ([("mode", .str p.mode)]
    ++ (if p.itemID = "" then [] else [("itemId", .str p.itemID)])
    ++ (match p.initialTimestamp with
        | none => []
        | some t => [("initialTimestamp", Json.time t)])
    ++ (match p.timestamp with
        | none => []
        | some t => [("timestamp", Json.time t)]))

/-- `Position.MarshalSDKPosition`: marshal the position into JSON bytes.
(`json.Marshal` cannot fail on this struct, so the Go error return is
always nil and elided here.) -/
def Position.MarshalSDKPosition (p : Position) : RawPosition :=
  .value p.marshalJson

/-- `json.Unmarshal` of one string-typed struct field: absent and `null`
leave the zero value stand, a string is taken verbatim, everything else is
a type error. -/
def decodeStringField : Option Json → Except String (Option String)
  | none => .ok none
  | some .null => .ok none
  | some (.str s) => .ok (some s)
  | some _ => .error "cannot unmarshal into field of type string"

/-- `json.Unmarshal` of one `*time.Time` struct field: absent and `null`
leave the nil pointer, an RFC3339 date-time string yields its instant, a
non-date string is a parse error, everything else a type error. -/
def decodeTimeField : Option Json → Except String (Option Int)
  | none => .ok none
  | some .null => .ok none
  | some (.time t) => .ok (some t)
  | some (.str _) => .error "parsing time"
  | some _ => .error "cannot unmarshal into field of type time.Time"

/-- `json.Unmarshal` into a fresh `Position` value: the top level must be
a JSON object (or the literal `null`, which leaves the zero value);
unknown keys are ignored. -/
def unmarshalPosition : Json → Except String Position
  | .null => .ok ⟨"", "", none, none⟩
  | .obj fields => do
    let mode ← decodeStringField (findField fields "mode")
    let itemID ← decodeStringField (findField fields "itemId")
    let initialTimestamp ← decodeTimeField (findField fields "initialTimestamp")
    let timestamp ← decodeTimeField (findField fields "timestamp")
    .ok ⟨mode.getD "", itemID.getD "", initialTimestamp, timestamp⟩
  | _ => .error "cannot unmarshal into Position"

/-- `ParsePosition` from `src/source/iterator/position.go`: zero-length
input fails with the sentinel `ErrEmptyPosition`; otherwise the bytes are
unmarshalled, wrapping any unmarshal failure in a generic error. -/
def ParsePosition : RawPosition → Except ParseError Position
  | .empty => .error .emptyPosition
  | .text bytes =>
    .error (.unmarshal ("unmarshal opencdc.Position into Position: invalid JSON: " ++ bytes))
  | .value j =>
    match unmarshalPosition j with
    | .ok p => .ok p
    | .error e => .error (.unmarshal ("unmarshal opencdc.Position into Position: " ++ e))

end position

/-- A HubSpot item (`hubspot.ListResponseResult`, `map[string]any`): the
decoded JSON field map of one remote record. -/
abbrev Item := List (String × Json)

/-- Go's zero `time.Time` (0001-01-01T00:00:00Z) in milliseconds since the
Unix epoch. -/
def goZeroTime : Int := -62135596800000

/-- The errors the iterator subsystem can surface, one constructor per
error kind (spec section 7 requires errors distinguishable by kind). -/
inductive Err where
  | fieldNotExist (name : String) : Err
  | parseTimeField (name : String) : Err
  | itemIDIsNotAString : Err
  | atoiError : Err
  | parseCreatedAt : Err
  | unsupportedResource (resource : String) : Err
  | invalidPositionMode (mode : String) : Err
  | nilTimestamp : Err
  | nilSnapshot : Err
  | nilCDC : Err
  | wouldBlock : Err
  | noInitializedIterator : Err
deriving DecidableEq, Repr

namespace hubspot

/-!
Embedding of the `hubspot` package's resource-capability tables and
item-field accessors (`src/hubspot/list.go` and the search file).
-/

/-- `hubspot.ResultsFieldID`: the field key for an item's id. -/
def ResultsFieldID : String := "id"

/-- `hubspot.ResultsFieldCreatedAt`: the field key for an item's creation
date. -/
def ResultsFieldCreatedAt : String := "createdAt"

/-- Modelled from the spec: `hubspot.UpdatedAtListSortKey`, the sort key
handed to the list endpoint so that CDC pages come back ordered by update
time ascending (spec section 4.3 step 2).  The file defining this constant
is not among the provided sources, only its uses; its exact string value
is irrelevant to every claim below. -/
def UpdatedAtListSortKey : String := "updatedAt"

/-- `hubspot.TimestampResource`: field names of a timestamp-based
resource; `deletedAtFieldName` is the zero string when the resource has no
deletion-time field. -/
structure TimestampResource where
  createdAtFieldName : String
  updatedAtFieldName : String
  deletedAtFieldName : String
deriving DecidableEq, Repr

/-- `hubspot.TimestampResources`: the table of resources that support
timestamp-based filtering, from `src/hubspot/list.go`. -/
def TimestampResources (resource : String) : Option TimestampResource :=
  if resource = "cms.blogs.authors" then some ⟨"created", "updated", "deletedAt"⟩
  else if resource = "cms.blogs.posts" then some ⟨"created", "updated", "deletedAt"⟩
  else if resource = "cms.blogs.tags" then some ⟨"created", "updated", "deletedAt"⟩
  else if resource = "cms.pages.landing" then some ⟨"createdAt", "updatedAt", "deletedAt"⟩
  else if resource = "cms.pages.site" then some ⟨"createdAt", "updatedAt", "deletedAt"⟩
  else if resource = "cms.hubdb.tables" then some ⟨"createdAt", "updatedAt", ""⟩
  else if resource = "cms.urlRedirects" then some ⟨"createdAt", "updatedAt", ""⟩
  else none

/-- `hubspot.SearchResource`: per-resource data of a search-based
resource.  The struct has no deletion-time field name at all. -/
structure SearchResource where
  path : String
  createdAtFieldName : String
  updatedAtFieldName : String
  createdAtSortName : String
  updatedAtSortName : String
  objectIDFilterName : String
deriving DecidableEq, Repr

/-- `hubspot.SearchResources`: the table of resources that have search
endpoints. -/
def SearchResources (resource : String) : Option SearchResource :=
  if resource = "crm.companies" then
    some ⟨"/crm/v3/objects/companies/search", "createdAt", "updatedAt",
      "createdate", "hs_lastmodifieddate", "hs_object_id"⟩
  else if resource = "crm.contacts" then
    some ⟨"/crm/v3/objects/contacts/search", "createdAt", "updatedAt",
      "createdate", "lastmodifieddate", "hs_object_id"⟩
  else if resource = "crm.deals" then
    some ⟨"/crm/v3/objects/deals/search", "createdAt", "updatedAt",
      "createdate", "hs_lastmodifieddate", "hs_object_id"⟩
  else if resource = "crm.feedbackSubmissions" then
    some ⟨"/crm/v3/objects/feedback_submissions/search", "createdAt", "updatedAt",
      "hs_createdate", "hs_lastmodifieddate", "hs_object_id"⟩
  else if resource = "crm.lineItems" then
    some ⟨"/crm/v3/objects/line_items/search", "createdAt", "updatedAt",
      "createdate", "hs_lastmodifieddate", "hs_object_id"⟩
  else if resource = "crm.products" then
    some ⟨"/crm/v3/objects/products/search", "createdAt", "updatedAt",
      "createdate", "hs_lastmodifieddate", "hs_object_id"⟩
  else if resource = "crm.tickets" then
    some ⟨"/crm/v3/objects/tickets/search", "createdAt", "updatedAt",
      "createdate", "hs_lastmodifieddate", "hs_object_id"⟩
  else if resource = "crm.quotes" then
    some ⟨"/crm/v3/objects/quotes/search", "createdAt", "updatedAt",
      "hs_createdate", "hs_lastmodifieddate", "hs_object_id"⟩
  else if resource = "crm.calls" then
    some ⟨"/crm/v3/objects/calls/search", "createdAt", "updatedAt",
      "hs_createdate", "hs_lastmodifieddate", "hs_object_id"⟩
  else if resource = "crm.emails" then
    some ⟨"/crm/v3/objects/emails/search", "createdAt", "updatedAt",
      "hs_createdate", "hs_lastmodifieddate", "hs_object_id"⟩
  else if resource = "crm.meetings" then
    some ⟨"/crm/v3/objects/meetings/search", "createdAt", "updatedAt",
      "hs_createdate", "hs_lastmodifieddate", "hs_object_id"⟩
  else if resource = "crm.notes" then
    some ⟨"/crm/v3/objects/notes/search", "createdAt", "updatedAt",
      "hs_createdate", "hs_lastmodifieddate", "hs_object_id"⟩
  else if resource = "crm.tasks" then
    some ⟨"/crm/v3/objects/tasks/search", "createdAt", "updatedAt",
      "hs_createdate", "hs_lastmodifieddate", "hs_object_id"⟩
  else none

/-- `hubspot.ListOptions`: the query options of the `List` client call. -/
structure ListOptions where
  limit : Int
  after : String
  createdAfter : Option Int
  updatedAfter : Option Int
  createdBefore : Option Int
  sort : String
  archived : Bool
deriving DecidableEq, Repr

/-- `hubspot.ListResponsePagingNext`. -/
structure ListResponsePagingNext where
  after : String
  link : String

/-- `hubspot.ListResponse` (the `total` count is unused by the core). -/
structure ListResponse where
  results : List Item
  paging : Option ListResponsePagingNext

/-- `ListResponseResult.GetTimeField`: the field must be present and a
string (otherwise `FieldNotExistError`) and must parse as RFC3339
(`Json.time`), otherwise a parse error. -/
def GetTimeField (r : Item) (name : String) : Except Err Int :=
  match findField r name with
  | some (.time t) => .ok t
  | some (.str _) => .error (.parseTimeField name)
  | _ => .error (.fieldNotExist name)

/-- `ListResponseResult.GetCreatedAt`: resolve the resource's creation
field name through the capability tables; unknown resources yield Go's
zero time with no error. -/
def GetCreatedAt (r : Item) (resource : String) : Except Err Int :=
  match TimestampResources resource with
  | some res => GetTimeField r res.createdAtFieldName
  | none =>
    match SearchResources resource with
    | some res => GetTimeField r res.createdAtFieldName
    | none => .ok goZeroTime

end hubspot

namespace iterator

/-!
Embedding of the iterator package of the era the claims cite for the
Snapshot, CDC and Combined iterators: `Position.ItemID` is an integer
there (`strconv.Atoi` of the item's string id).
-/

/-- `SnapshotPositionMode`. -/
def SnapshotPositionMode : String := "snapshot"

/-- `CDCPositionMode`. -/
def CDCPositionMode : String := "cdc"

/-- The iterator package's `Position` (the era with an integer
`ItemID`). -/
structure Position where
  mode : String
  itemID : Int
  initialTimestamp : Option Int
  timestamp : Option Int
deriving DecidableEq, Repr

/-- The operation of an emitted `sdk.Record`. -/
inductive Operation where
  | snapshot : Operation
  | create : Operation
  | update : Operation
  | delete : Operation
deriving DecidableEq, Repr

/-- An emitted `sdk.Record`: operation, the (marshalled) position it
carries, its created-at metadata, its key `{id: itemID}`, and its payload
(`none` for delete records, which carry only the key). -/
structure Record where
  operation : Operation
  position : Position
  metadataCreatedAt : Int
  key : Int
  payload : Option Item

/-- The remote API as seen by the iterators: one entry per client call,
mapping the call's arguments to its response, plus the current wall-clock
instant.  Transport failures and retries live in the client collaborator
(spec sections 1 and 7) and are outside this model. -/
structure Env where
  now : Int
  list : String → hubspot.ListOptions → hubspot.ListResponse
  listByNextLink : String → hubspot.ListResponse
  searchByUpdatedAfter : String → Int → Int → hubspot.ListResponse
  searchByCreatedBefore : String → Int → Int → Int → List String → hubspot.ListResponse

/-- The CDC iterator's state: its configuration, the queued (not yet
consumed) records of its channel, and its position. -/
structure CDC where
  resource : String
  bufferSize : Int
  records : List Record
  position : Position

/-- `CDC.HasNext`: `len(c.records) > 0` (the error return is always
nil). -/
def CDC.hasNextB (c : CDC) : Bool := !c.records.isEmpty

/-- `CDC.getItemPosition`: the item's `id` field must be a string
(`ErrItemIDIsNotAString` otherwise) holding an integer (`strconv.Atoi`,
modelled by `String.toInt?`); the position produced is CDC-mode with the
provided timestamp. -/
def CDC.getItemPosition (item : Item) (timestamp : Int) : Except Err Position :=
  match findField item hubspot.ResultsFieldID with
  | some (.str s) =>
    match atoi s with
    | some n => .ok ⟨CDCPositionMode, n, none, some timestamp⟩
    | none => .error .atoiError
  | some (.time _) => .error .atoiError
  | _ => .error .itemIDIsNotAString

/-- `CDC.getRecord`: choose the record's operation.  An item counts as
deleted when `itemDeletedAt.Unix() > 0`; otherwise it is a create when its
creation time is strictly after `updatedAfter`, else an update.  Delete
records carry only the key; create and update records carry the full item.
`pos` is the position `routeItem` has just stored in the iterator. -/
def CDC.getRecord (pos : Position) (item : Item)
    (itemCreatedAt itemDeletedAt updatedAfter : Int)
    (metadataCreatedAt : Int) : Record :=
  if goUnixSec itemDeletedAt > 0 then
    ⟨.delete, pos, metadataCreatedAt, pos.itemID, none⟩
  else if updatedAfter < itemCreatedAt then
    ⟨.create, pos, metadataCreatedAt, pos.itemID, some item⟩
  else
    ⟨.update, pos, metadataCreatedAt, pos.itemID, some item⟩

/-- `CDC.routeItem`: read the item's creation and update instants, read
its deletion instant when the resource declares a deletion-time field
(it starts out as `time.Unix(0,0)` otherwise), advance the iterator's
position to the item's update time, and queue the classified record. -/
def CDC.routeItem (c : CDC) (item : Item)
    (createdAtFieldName updatedAtFieldName deletedAtFieldName : String)
    (updatedAfter : Int) : Except Err CDC := do
  let itemCreatedAt ← hubspot.GetTimeField item createdAtFieldName
  let itemUpdatedAt ← hubspot.GetTimeField item updatedAtFieldName
  let itemDeletedAt ←
    if deletedAtFieldName = "" then pure 0
    else hubspot.GetTimeField item deletedAtFieldName
  let pos ← CDC.getItemPosition item itemUpdatedAt
  let r := CDC.getRecord pos item itemCreatedAt itemDeletedAt updatedAfter itemCreatedAt
  .ok { c with position := pos, records := c.records ++ [r] }

/-- The `for _, item := range listResponse.Results` loop around
`routeItem`, stopping at the first error. -/
def CDC.routeItems (c : CDC) (items : List Item)
    (createdAtFieldName updatedAtFieldName deletedAtFieldName : String)
    (updatedAfter : Int) : Except Err CDC :=
  match items with
  | [] => .ok c
  | item :: rest => do
    let c' ← CDC.routeItem c item createdAtFieldName updatedAtFieldName
      deletedAtFieldName updatedAfter
    CDC.routeItems c' rest createdAtFieldName updatedAtFieldName
      deletedAtFieldName updatedAfter

/-- The `ListOptions` built by `CDC.fetchTimestampBasedItems`: page limit,
the `updatedAfter` bound, update-time sort, archived included. -/
def cdcListOptions (bufferSize updatedAfter : Int) : hubspot.ListOptions :=
  { limit := bufferSize, after := "", createdAfter := none,
    updatedAfter := some updatedAfter, createdBefore := none,
    sort := hubspot.UpdatedAtListSortKey, archived := true }

/-- `CDC.fetchTimestampBasedItems`: list the resource filtered by
`updatedAfter` and route every result. -/
def CDC.fetchTimestampBasedItems (env : Env) (c : CDC)
    (res : hubspot.TimestampResource) (updatedAfter : Int) : Except Err CDC :=
  let resp := env.list c.resource (cdcListOptions c.bufferSize updatedAfter)
  CDC.routeItems c resp.results res.createdAtFieldName res.updatedAtFieldName
    res.deletedAtFieldName updatedAfter

/-- `CDC.fetchSearchBasedItems`: search the resource by `updatedAfter` and
route every result; search resources pass an empty deletion-time field
name. -/
def CDC.fetchSearchBasedItems (env : Env) (c : CDC)
    (res : hubspot.SearchResource) (updatedAfter : Int) : Except Err CDC :=
  let resp := env.searchByUpdatedAfter c.resource updatedAfter c.bufferSize
  CDC.routeItems c resp.results res.createdAtFieldName res.updatedAtFieldName
    "" updatedAfter

/-- `CDC.processUpdatedItems`: dispatch on the resource's capability;
unknown resources are a silent no-op here. -/
def CDC.processUpdatedItems (env : Env) (c : CDC) (updatedAfter : Int) :
    Except Err CDC :=
  match hubspot.TimestampResources c.resource with
  | some res => CDC.fetchTimestampBasedItems env c res updatedAfter
  | none =>
    match hubspot.SearchResources c.resource with
    | some res => CDC.fetchSearchBasedItems env c res updatedAfter
    | none => .ok c

/-- `CDC.loadRecords`: add one millisecond to the position's timestamp
(in order to skip the already-processed boundary item) and process the
items updated after that shifted instant.  A nil timestamp would be a nil
dereference in Go; `NewCDC` guarantees it is set. -/
def CDC.loadRecords (env : Env) (c : CDC) : Except Err CDC :=
  match c.position.timestamp with
  | none => .error .nilTimestamp
  | some ts =>
    let c' := { c with position := { c.position with timestamp := some (ts + 1) } }
    CDC.processUpdatedItems env c' (ts + 1)

/-- `CDCParams` (the fields the model needs). -/
structure CDCParams where
  resource : String
  bufferSize : Int
  position : Option Position

/-- The fresh position `NewCDC` builds when no usable one is supplied:
CDC mode with the current instant as watermark. -/
def freshCDCPosition (now : Int) : Position :=
  ⟨CDCPositionMode, 0, none, some now⟩

/-- `NewCDC`'s position resolution: keep the supplied position unless it
is absent or lacks a timestamp. -/
def cdcInitPosition (pos : Option Position) (now : Int) : Position :=
  match pos with
  | none => freshCDCPosition now
  | some p => if p.timestamp.isSome then p else freshCDCPosition now

/-- `NewCDC`: resolve the position, then perform the synchronous initial
`loadRecords` (the asynchronous poll loop is concurrency, outside the
model). -/
def NewCDC (env : Env) (params : CDCParams) : Except Err CDC :=
  let c : CDC :=
    { resource := params.resource, bufferSize := params.bufferSize,
      records := [], position := cdcInitPosition params.position env.now }
  CDC.loadRecords env c

/-- The Snapshot iterator's state (the era with `initialTimestamp`,
`nextLink` and `hasMoreItems`). -/
structure Snapshot where
  resource : String
  bufferSize : Int
  records : List Record
  position : Position
  extraProperties : List String
  initialTimestamp : Int
  nextLink : String
  hasMoreItems : Bool

/-- `Snapshot.HasNext`: queued records remain or more pages exist. -/
def Snapshot.hasNextB (s : Snapshot) : Bool :=
  !s.records.isEmpty || s.hasMoreItems

/-- `Snapshot.getItemPosition`: like the CDC one but the produced position
carries only the item id and timestamp (its mode is the zero string). -/
def Snapshot.getItemPosition (item : Item) (timestamp : Int) : Except Err Position :=
  match findField item hubspot.ResultsFieldID with
  | some (.str s) =>
    match atoi s with
    | some n => .ok ⟨"", n, none, some timestamp⟩
    | none => .error .atoiError
  | some (.time _) => .error .atoiError
  | _ => .error .itemIDIsNotAString

/-- `Snapshot.getItemMetadata`: created-at metadata from the item's
`createdAt` field; when that field is absent or not a string the current
time is used; a string that fails RFC3339 parsing is an error. -/
def Snapshot.getItemMetadata (now : Int) (item : Item) : Except Err Int :=
  match findField item hubspot.ResultsFieldCreatedAt with
  | some (.time t) => .ok t
  | some (.str _) => .error .parseCreatedAt
  | _ => .ok now

/-- The `ListOptions` built by `Snapshot.listTimestampBasedItems`:
page limit, `createdBefore` cut at the snapshot's initial timestamp,
creation-time sort. -/
def snapshotListOptions (bufferSize initialTimestamp : Int) (sort : String) :
    hubspot.ListOptions :=
  { limit := bufferSize, after := "", createdAfter := none,
    updatedAfter := none, createdBefore := some initialTimestamp,
    sort := sort, archived := false }

/-- `Snapshot.listTimestampBasedItems`: follow the stored next link
verbatim when one exists, otherwise issue the filtered list query. -/
def Snapshot.listTimestampBasedItems (env : Env) (s : Snapshot)
    (res : hubspot.TimestampResource) : hubspot.ListResponse :=
  if s.nextLink ≠ "" then env.listByNextLink s.nextLink
  else env.list s.resource
    (snapshotListOptions s.bufferSize s.initialTimestamp res.createdAtFieldName)

/-- `Snapshot.listSearchBasedItems`: search bounded by the initial
timestamp with the id lower bound one past the last processed item.  (The
Go code guards `s.position != nil`, but after construction the position is
always set.) -/
def Snapshot.listSearchBasedItems (env : Env) (s : Snapshot) : hubspot.ListResponse :=
  let after := s.position.itemID + 1
  env.searchByCreatedBefore s.resource s.initialTimestamp s.bufferSize after
    s.extraProperties

/-- `Snapshot.listItems`: dispatch on the resource's capability; an
unknown resource is an `UnsupportedResourceError`. -/
def Snapshot.listItems (env : Env) (s : Snapshot) : Except Err hubspot.ListResponse :=
  match hubspot.TimestampResources s.resource with
  | some res => .ok (Snapshot.listTimestampBasedItems env s res)
  | none =>
    match hubspot.SearchResources s.resource with
    | some _ => .ok (Snapshot.listSearchBasedItems env s)
    | none => .error (.unsupportedResource s.resource)

/-- The `for _, item := range listResponse.Results` loop of
`Snapshot.loadRecords`: per item, read its creation instant, advance the
position's `itemID` and `timestamp` (keeping mode and initial timestamp),
build the created-at metadata, and queue a snapshot record with the full
item as payload. -/
def Snapshot.processItems (env : Env) (s : Snapshot) (items : List Item) :
    Except Err Snapshot :=
  match items with
  | [] => .ok s
  | item :: rest => do
    let itemCreatedAt ← hubspot.GetCreatedAt item s.resource
    let newPos ← Snapshot.getItemPosition item itemCreatedAt
    let s := { s with position :=
      { s.position with timestamp := newPos.timestamp, itemID := newPos.itemID } }
    let metadataCreatedAt ← Snapshot.getItemMetadata env.now item
    let s := { s with records := s.records ++
      [⟨.snapshot, s.position, metadataCreatedAt, s.position.itemID, some item⟩] }
    Snapshot.processItems env s rest

/-- `Snapshot.loadRecords`: list one page, record whether more pages
remain (and the follow-on link), and process every returned item. -/
def Snapshot.loadRecords (env : Env) (s : Snapshot) : Except Err Snapshot := do
  let resp ← Snapshot.listItems env s
  let s := { s with
    hasMoreItems := resp.paging.isSome,
    nextLink := match resp.paging with | some p => p.link | none => "" }
  Snapshot.processItems env s resp.results

/-- `SnapshotParams` (the fields the model needs). -/
structure SnapshotParams where
  resource : String
  bufferSize : Int
  position : Option Position
  extraProperties : List String

/-- `NewSnapshot`'s resolution of `(initialTimestamp, position)`: reuse
the supplied position's initial timestamp when present, otherwise discard
any supplied position and start a fresh snapshot-mode one cut at the
current instant. -/
def snapshotInit (now : Int) (pos : Option Position) : Int × Position :=
  match pos with
  | some p =>
    match p.initialTimestamp with
    | some t => (t, p)
    | none => (now, ⟨SnapshotPositionMode, 0, some now, none⟩)
  | none => (now, ⟨SnapshotPositionMode, 0, some now, none⟩)

/-- The Snapshot state as it stands right after the field initialisation
of `NewSnapshot`, before the initial load. -/
def snapshotInitState (env : Env) (params : SnapshotParams) : Snapshot :=
  { resource := params.resource, bufferSize := params.bufferSize,
    records := [],
    position := (snapshotInit env.now params.position).2,
    extraProperties := params.extraProperties,
    initialTimestamp := (snapshotInit env.now params.position).1,
    nextLink := "", hasMoreItems := false }

/-- `NewSnapshot`: initialise the state, then perform the synchronous
initial `loadRecords`. -/
def NewSnapshot (env : Env) (params : SnapshotParams) : Except Err Snapshot :=
  Snapshot.loadRecords env (snapshotInitState env params)

/-- The Combined iterator's state: at most one of the two sub-iterators is
active. -/
structure Combined where
  snapshot : Option Snapshot
  cdc : Option CDC
  resource : String
  bufferSize : Int
  extraProperties : List String

/-- `CombinedParams` (the fields the model needs). -/
structure CombinedParams where
  resource : String
  bufferSize : Int
  position : Option Position
  extraProperties : List String
  snapshot : Bool

/-- Whether an optional position is present with the given mode (the
`position != nil && position.Mode == m` tests of `NewCombined`). -/
def positionModeIs (pos : Option Position) (mode : String) : Bool :=
  match pos with
  | none => false
  | some p => p.mode == mode

/-- `NewCombined`: the construction-time dispatch.  The first matching
case of the Go `switch` wins; any remaining combination fails with the
invalid-position-mode error (reachable only with a non-nil position). -/
def NewCombined (env : Env) (params : CombinedParams) : Except Err Combined :=
  let base : Combined :=
    { snapshot := none, cdc := none, resource := params.resource,
      bufferSize := params.bufferSize, extraProperties := params.extraProperties }
  if params.snapshot &&
      (params.position.isNone || positionModeIs params.position SnapshotPositionMode) then
    (NewSnapshot env
      { resource := params.resource, bufferSize := params.bufferSize,
        position := params.position,
        extraProperties := params.extraProperties }).map
      (fun s => { base with snapshot := some s })
  else if !params.snapshot || positionModeIs params.position CDCPositionMode then
    (NewCDC env
      { resource := params.resource, bufferSize := params.bufferSize,
        position := params.position }).map
      (fun c => { base with cdc := some c })
  else
    .error (.invalidPositionMode
      (match params.position with | some p => p.mode | none => ""))

/-- `Combined.switchToCDCIterator`: synchronously construct a CDC iterator
whose seed position carries the snapshot's `initialTimestamp` as
timestamp, then stop and discard the Snapshot iterator. -/
def Combined.switchToCDCIterator (env : Env) (c : Combined) : Except Err Combined :=
  match c.snapshot with
  | none => .error .nilSnapshot
  | some s => do
    let cdc ← NewCDC env
      { resource := c.resource, bufferSize := c.bufferSize,
        position := some ⟨CDCPositionMode, 0, none, some s.initialTimestamp⟩ }
    .ok { c with cdc := some cdc, snapshot := none }

/-- `Combined.HasNext`: delegate to the active sub-iterator; when the
snapshot reports exhaustion, switch to CDC and re-delegate. -/
def Combined.HasNext (env : Env) (c : Combined) : Except Err (Bool × Combined) :=
  match c.snapshot with
  | some s =>
    if Snapshot.hasNextB s then .ok (true, c)
    else do
      let c' ← Combined.switchToCDCIterator env c
      match c'.cdc with
      | some cdc => .ok (CDC.hasNextB cdc, c')
      | none => .error .nilCDC
  | none =>
    match c.cdc with
    | some cdc => .ok (CDC.hasNextB cdc, c)
    | none => .ok (false, c)

/-- `Combined.Next`: pop one record from the active sub-iterator's
channel.  Waiting on an empty channel (and the async error slot) is
concurrency; the blocked wait is modelled by `Err.wouldBlock`. -/
def Combined.Next (c : Combined) : Except Err (Record × Combined) :=
  match c.snapshot with
  | some s =>
    match s.records with
    | r :: rest => .ok (r, { c with snapshot := some { s with records := rest } })
    | [] => .error .wouldBlock
  | none =>
    match c.cdc with
    | some cdc =>
      match cdc.records with
      | r :: rest => .ok (r, { c with cdc := some { cdc with records := rest } })
      | [] => .error .wouldBlock
    | none => .error .noInitializedIterator

end iterator

/-!
## Claim C4 — Position marshal/parse round trip
-/

/-- C4: for every Position value `p`, parsing the bytes produced by
marshalling `p` yields a Position equal to `p` field-for-field (mode,
itemID, initialTimestamp, timestamp), and the optional fields that are
absent are omitted from the marshalled JSON object rather than serialized
as `null`. -/
theorem position_marshal_parse_roundtrip (p : position.Position) :
    position.ParsePosition p.MarshalSDKPosition = Except.ok p
    ∧ ("itemId" ∈ p.marshalJson.objFields.map Prod.fst ↔ p.itemID ≠ "")
    ∧ ("initialTimestamp" ∈ p.marshalJson.objFields.map Prod.fst ↔
        p.initialTimestamp.isSome)
    ∧ ("timestamp" ∈ p.marshalJson.objFields.map Prod.fst ↔ p.timestamp.isSome)
    ∧ p.marshalJson.objFields.all (fun kv => !kv.2.isNull) = true := by
  obtain ⟨m, i, it, ts⟩ := p
  by_cases hi : i = "" <;> cases it <;> cases ts <;>
    simp [position.ParsePosition, position.Position.MarshalSDKPosition,
      position.Position.marshalJson, position.unmarshalPosition, findField,
      position.decodeStringField, position.decodeTimeField, Json.objFields,
      Json.isNull, hi, Bind.bind, Except.bind, Option.getD]

/-- C4 witness: the round trip and omission facts at a concrete
Position. -/
theorem position_marshal_parse_roundtrip_witness :
    position.ParsePosition
        (position.Position.MarshalSDKPosition ⟨"snapshot", "42", some 7, none⟩)
      = Except.ok ⟨"snapshot", "42", some 7, none⟩
    ∧ ¬("timestamp" ∈
        (position.Position.marshalJson ⟨"snapshot", "42", some 7, none⟩).objFields.map
          Prod.fst) := by
  obtain ⟨h1, _, _, h4, _⟩ :=
    position_marshal_parse_roundtrip ⟨"snapshot", "42", some 7, none⟩
  exact ⟨h1, by simpa using h4⟩

/-!
## Claim C5 — parse error discrimination
-/

/-- C5: `ParsePosition` fails with the sentinel empty-position error
exactly when the input has zero length; every non-empty input that is not
valid Position JSON fails with the generic unmarshal error (a different
constructor of `ParseError`, distinguishable by kind); and a non-empty
input that unmarshals as a Position succeeds. -/
theorem parsePosition_error_kinds :
    (∀ r : position.RawPosition,
      position.ParsePosition r = Except.error position.ParseError.emptyPosition
        ↔ r = position.RawPosition.empty)
    ∧ (∀ bytes : String, ∃ msg,
        position.ParsePosition (.text bytes)
          = Except.error (position.ParseError.unmarshal msg))
    ∧ (∀ (j : Json), (∃ e, position.unmarshalPosition j = Except.error e) →
        ∃ msg, position.ParsePosition (.value j)
          = Except.error (position.ParseError.unmarshal msg))
    ∧ (∀ (j : Json) (p : position.Position),
        position.unmarshalPosition j = Except.ok p →
        position.ParsePosition (.value j) = Except.ok p) := by
  refine ⟨fun r => ?_, fun bytes => ⟨_, rfl⟩, fun j h => ?_, fun j p h => ?_⟩
  · cases r with
    | empty => simp [position.ParsePosition]
    | text bytes => simp [position.ParsePosition]
    | value j =>
      simp only [position.ParsePosition]
      cases position.unmarshalPosition j <;> simp
  · obtain ⟨e, he⟩ := h
    refine ⟨"unmarshal opencdc.Position into Position: " ++ e, ?_⟩
    simp [position.ParsePosition, he]
  · simp [position.ParsePosition, h]

/-- C5 witness: the sentinel at the empty input, the generic error at a
malformed non-empty input, and success at a valid one. -/
theorem parsePosition_error_kinds_witness :
    (position.ParsePosition position.RawPosition.empty
      = Except.error position.ParseError.emptyPosition)
    ∧ (∃ msg, position.ParsePosition (.value (Json.num 3))
        = Except.error (position.ParseError.unmarshal msg))
    ∧ (position.ParsePosition
        (.value (Json.obj [("mode", Json.str "cdc"), ("timestamp", Json.time 5)]))
      = Except.ok ⟨"cdc", "", none, some 5⟩) := by
  have hbad : ∃ e, position.unmarshalPosition (Json.num 3) = Except.error e :=
    ⟨_, rfl⟩
  have hok : position.unmarshalPosition
      (Json.obj [("mode", Json.str "cdc"), ("timestamp", Json.time 5)])
      = Except.ok ⟨"cdc", "", none, some 5⟩ := rfl
  exact ⟨(parsePosition_error_kinds.1 _).mpr rfl,
    parsePosition_error_kinds.2.2.1 _ hbad,
    parsePosition_error_kinds.2.2.2 _ _ hok⟩

/-!
## Claim C3 — the CDC watermark shift
-/

/-- A remote API environment whose every call returns an empty page, used
to instantiate load steps at concrete inputs. -/
def emptyEnv : iterator.Env :=
  { now := 1000,
    list := fun _ _ => { results := [], paging := none },
    listByNextLink := fun _ => { results := [], paging := none },
    searchByUpdatedAfter := fun _ _ _ => { results := [], paging := none },
    searchByCreatedBefore := fun _ _ _ _ _ => { results := [], paging := none } }

/-- C3: every CDC load step first advances the position's watermark by
exactly one millisecond past its previous value and then uses that shifted
value as the `updatedAfter` bound of the query it issues (for both the
timestamp-based list query and the search query); no other shift is
applied anywhere on the path from the stored watermark to the query. -/
theorem cdc_loadRecords_shift_one_ms :
    (∀ (env : iterator.Env) (c : iterator.CDC) (ts : Int),
      c.position.timestamp = some ts →
      iterator.CDC.loadRecords env c =
        iterator.CDC.processUpdatedItems env
          { c with position := { c.position with timestamp := some (ts + 1) } }
          (ts + 1))
    ∧ (∀ (env : iterator.Env) (c : iterator.CDC) (ua : Int)
        (res : hubspot.TimestampResource),
        hubspot.TimestampResources c.resource = some res →
        iterator.CDC.processUpdatedItems env c ua =
          iterator.CDC.routeItems c
            (env.list c.resource (iterator.cdcListOptions c.bufferSize ua)).results
            res.createdAtFieldName res.updatedAtFieldName res.deletedAtFieldName ua)
    ∧ (∀ (env : iterator.Env) (c : iterator.CDC) (ua : Int)
        (res : hubspot.SearchResource),
        hubspot.TimestampResources c.resource = none →
        hubspot.SearchResources c.resource = some res →
        iterator.CDC.processUpdatedItems env c ua =
          iterator.CDC.routeItems c
            (env.searchByUpdatedAfter c.resource ua c.bufferSize).results
            res.createdAtFieldName res.updatedAtFieldName "" ua)
    ∧ (∀ bufferSize ua,
        (iterator.cdcListOptions bufferSize ua).updatedAfter = some ua) := by
  refine ⟨fun env c ts h => ?_, fun env c ua res h => ?_,
    fun env c ua res h1 h2 => ?_, fun _ _ => rfl⟩
  · simp [iterator.CDC.loadRecords, h]
  · simp [iterator.CDC.processUpdatedItems, iterator.CDC.fetchTimestampBasedItems, h]
  · simp [iterator.CDC.processUpdatedItems, iterator.CDC.fetchSearchBasedItems, h1, h2]

/-- C3 witness: the shift and bound at concrete CDC states, once per
resource capability. -/
theorem cdc_loadRecords_shift_one_ms_witness :
    (iterator.CDC.loadRecords emptyEnv ⟨"r", 5, [], ⟨"cdc", 0, none, some 41⟩⟩
      = iterator.CDC.processUpdatedItems emptyEnv
          ⟨"r", 5, [], ⟨"cdc", 0, none, some 42⟩⟩ 42)
    ∧ (iterator.CDC.processUpdatedItems emptyEnv
          ⟨"cms.blogs.authors", 5, [], ⟨"cdc", 0, none, some 42⟩⟩ 42
      = iterator.CDC.routeItems ⟨"cms.blogs.authors", 5, [], ⟨"cdc", 0, none, some 42⟩⟩
          (emptyEnv.list "cms.blogs.authors" (iterator.cdcListOptions 5 42)).results
          "created" "updated" "deletedAt" 42)
    ∧ (iterator.CDC.processUpdatedItems emptyEnv
          ⟨"crm.companies", 5, [], ⟨"cdc", 0, none, some 42⟩⟩ 42
      = iterator.CDC.routeItems ⟨"crm.companies", 5, [], ⟨"cdc", 0, none, some 42⟩⟩
          (emptyEnv.searchByUpdatedAfter "crm.companies" 42 5).results
          "createdAt" "updatedAt" "" 42) := by
  refine ⟨?_, ?_, ?_⟩
  · have h := cdc_loadRecords_shift_one_ms.1 emptyEnv
      ⟨"r", 5, [], ⟨"cdc", 0, none, some 41⟩⟩ 41 rfl
    simpa using h
  · have h := cdc_loadRecords_shift_one_ms.2.1 emptyEnv
      ⟨"cms.blogs.authors", 5, [], ⟨"cdc", 0, none, some 42⟩⟩ 42
      ⟨"created", "updated", "deletedAt"⟩ (by simp [hubspot.TimestampResources])
    simpa using h
  · have h := cdc_loadRecords_shift_one_ms.2.2.1 emptyEnv
      ⟨"crm.companies", 5, [], ⟨"cdc", 0, none, some 42⟩⟩ 42
      ⟨"/crm/v3/objects/companies/search", "createdAt", "updatedAt",
        "createdate", "hs_lastmodifieddate", "hs_object_id"⟩
      (by simp [hubspot.TimestampResources]) (by simp [hubspot.SearchResources])
    simpa using h


/-!
## Claim C1 — CDC record classification
-/

/-- C1 (amended): every CDC load cycle classifies its items against the
shifted query bound — the pre-shift watermark advanced by one millisecond
— not against the pre-shift watermark itself, and the emitted record's
operation is decided in this priority: if the resource declares a
deletion-time field and the item's deletion-time value lies at least one
full second after the Unix epoch (its floored Unix-second value is
strictly positive — not merely "non-epoch, non-zero"), the operation is
delete; otherwise, if the item's creation time is strictly after that
shifted bound (so an item created exactly one millisecond after the
pre-shift watermark is an update, not a create), the operation is create;
otherwise it is update.  Delete records carry only the key; create and
update records carry the full item as payload. -/
theorem cdc_routeItem_classification :
    (∀ (c : iterator.CDC) (item : Item) (cf uf df : String)
        (ua ca upd del : Int) (pos : iterator.Position),
      hubspot.GetTimeField item cf = Except.ok ca →
      hubspot.GetTimeField item uf = Except.ok upd →
      ((df = "" ∧ del = 0) ∨
        (df ≠ "" ∧ hubspot.GetTimeField item df = Except.ok del)) →
      iterator.CDC.getItemPosition item upd = Except.ok pos →
      iterator.CDC.routeItem c item cf uf df ua =
        Except.ok { c with position := pos, records := c.records ++
          [if goUnixSec del > 0 then
            ⟨iterator.Operation.delete, pos, ca, pos.itemID, none⟩
          else if ua < ca then
            ⟨iterator.Operation.create, pos, ca, pos.itemID, some item⟩
          else
            ⟨iterator.Operation.update, pos, ca, pos.itemID, some item⟩] })
    ∧ (∀ (env : iterator.Env) (c : iterator.CDC) (ts : Int),
      c.position.timestamp = some ts →
      iterator.CDC.loadRecords env c =
        iterator.CDC.processUpdatedItems env
          { c with position := { c.position with timestamp := some (ts + 1) } }
          (ts + 1)) := by
  refine ⟨fun c item cf uf df ua ca upd del pos hca hupd hdel hpos => ?_,
    fun env c ts h => by simp [iterator.CDC.loadRecords, h]⟩
  rcases hdel with ⟨h1, h2⟩ | ⟨h1, h2⟩
  · subst h1
    subst h2
    simp only [iterator.CDC.routeItem, Bind.bind, Except.bind, hca, hupd, hpos,
      if_pos rfl, Pure.pure, Except.pure, iterator.CDC.getRecord]
    simp
  · simp only [iterator.CDC.routeItem, Bind.bind, Except.bind, hca, hupd, hpos,
      if_neg h1, h2, iterator.CDC.getRecord]

/-- A remote API environment whose every call returns a single item
created exactly one millisecond after the pre-shift watermark 100 used in
the C1 counterexample. -/
def boundaryItemEnv : iterator.Env :=
  { now := 1000,
    list := fun _ _ =>
      { results := [[("id", Json.str "7"), ("createdAt", Json.time 101),
          ("updatedAt", Json.time 150)]], paging := none },
    listByNextLink := fun _ => { results := [], paging := none },
    searchByUpdatedAfter := fun _ _ _ => { results := [], paging := none },
    searchByCreatedBefore := fun _ _ _ _ _ => { results := [], paging := none } }

/-- C1 counterexample, refuting both classification clauses as the claim
states them.  Delete clause: a deletion-time of 500 milliseconds after the
epoch is a non-epoch, non-zero instant, yet the routed record's operation
is `update`, not `delete` (the code tests `Unix() > 0`, i.e. only instants
at least one whole second after the epoch count as deleted).  Create
clause: a load cycle whose pre-shift watermark is 100 queries with the
shifted bound 101, and an item created at 101 — strictly after the
pre-shift watermark — is routed `update` by the code, where the claim says
`create`. -/
theorem cdc_routeItem_classification_counterexample :
    (hubspot.GetTimeField
        [("id", Json.str "7"), ("created", Json.time 50),
         ("updated", Json.time 60), ("deletedAt", Json.time 500)] "deletedAt"
      = Except.ok 500 ∧ (500 : Int) ≠ 0)
    ∧ (iterator.CDC.routeItem ⟨"cms.blogs.authors", 5, [], ⟨"cdc", 0, none, some 99⟩⟩
        [("id", Json.str "7"), ("created", Json.time 50),
         ("updated", Json.time 60), ("deletedAt", Json.time 500)]
        "created" "updated" "deletedAt" 100).map
          (fun c => c.records.map iterator.Record.operation)
      = Except.ok [iterator.Operation.update]
    ∧ ((100 : Int) < 101
      ∧ (iterator.CDC.loadRecords boundaryItemEnv
          ⟨"cms.hubdb.tables", 5, [], ⟨"cdc", 0, none, some 100⟩⟩).map
            (fun c => c.records.map iterator.Record.operation)
        = Except.ok [iterator.Operation.update]) :=
  ⟨⟨rfl, by decide⟩, rfl, by decide, rfl⟩

/-- C1 witness: a deletion-time five full seconds after the epoch is
classified delete with a key-only record, and a concrete load cycle
shifts its watermark from 60 to the query bound 61. -/
theorem cdc_routeItem_classification_witness :
    iterator.CDC.routeItem ⟨"cms.blogs.authors", 5, [], ⟨"cdc", 0, none, some 99⟩⟩
        [("id", Json.str "7"), ("created", Json.time 50),
         ("updated", Json.time 60), ("deletedAt", Json.time 5000)]
        "created" "updated" "deletedAt" 100
      = Except.ok
          ⟨"cms.blogs.authors", 5,
           [⟨iterator.Operation.delete, ⟨"cdc", 7, none, some 60⟩, 50, 7, none⟩],
           ⟨"cdc", 7, none, some 60⟩⟩
    ∧ iterator.CDC.loadRecords emptyEnv ⟨"r", 5, [], ⟨"cdc", 0, none, some 60⟩⟩
      = iterator.CDC.processUpdatedItems emptyEnv
          ⟨"r", 5, [], ⟨"cdc", 0, none, some 61⟩⟩ 61 := by
  constructor
  · have h := cdc_routeItem_classification.1
      ⟨"cms.blogs.authors", 5, [], ⟨"cdc", 0, none, some 99⟩⟩
      [("id", Json.str "7"), ("created", Json.time 50),
       ("updated", Json.time 60), ("deletedAt", Json.time 5000)]
      "created" "updated" "deletedAt" 100 50 60 5000 ⟨"cdc", 7, none, some 60⟩
      rfl rfl (Or.inr ⟨by decide, rfl⟩) rfl
    rw [h]
    norm_num [goUnixSec, Int.fdiv]
  · have h := cdc_routeItem_classification.2 emptyEnv
      ⟨"r", 5, [], ⟨"cdc", 0, none, some 60⟩⟩ 60 rfl
    simpa using h

/-!
## Claim C8 — no deletes without a deletion-time field
-/

/-- The deletion-time field name the CDC path uses for a resource: the
timestamp table's entry (which may itself be the zero string), and the
zero string for search-based and unknown resources, which declare no
deletion-time field at all. -/
def deletedAtFieldNameOf (resource : String) : String :=
  match hubspot.TimestampResources resource with
  | some res => res.deletedAtFieldName
  | none => ""

/-- With no deletion-time field, `routeItem` appends one record that is a
create or an update, never a delete. -/
theorem routeItem_empty_df_not_delete (c : iterator.CDC) (item : Item)
    (cf uf : String) (ua : Int) (c' : iterator.CDC)
    (h : iterator.CDC.routeItem c item cf uf "" ua = Except.ok c') :
    ∃ r, c'.records = c.records ++ [r] ∧
      (r.operation = iterator.Operation.create ∨
        r.operation = iterator.Operation.update) := by
  simp only [iterator.CDC.routeItem, Bind.bind, Except.bind, if_pos rfl,
    Pure.pure, Except.pure] at h
  cases hca : hubspot.GetTimeField item cf with
  | error e => simp [hca] at h
  | ok ca =>
    cases hupd : hubspot.GetTimeField item uf with
    | error e => simp [hca, hupd] at h
    | ok upd =>
      cases hpos : iterator.CDC.getItemPosition item upd with
      | error e => simp [hca, hupd, hpos] at h
      | ok pos =>
        simp [hca, hupd, hpos] at h
        subst h
        refine ⟨_, rfl, ?_⟩
        simp only [iterator.CDC.getRecord]
        have hz : ¬(goUnixSec 0 > 0) := by decide
        rw [if_neg hz]
        by_cases hc : ua < ca
        · rw [if_pos hc]
          left
          rfl
        · rw [if_neg hc]
          right
          rfl

/-- `routeItems` with no deletion-time field only adds create and update
records. -/
theorem routeItems_empty_df_not_delete (items : List Item) :
    ∀ (c : iterator.CDC) (cf uf : String) (ua : Int) (c' : iterator.CDC),
    iterator.CDC.routeItems c items cf uf "" ua = Except.ok c' →
    ∀ r ∈ c'.records, r ∈ c.records ∨
      (r.operation = iterator.Operation.create ∨
        r.operation = iterator.Operation.update) := by
  induction items with
  | nil =>
    intro c cf uf ua c' h r hr
    simp only [iterator.CDC.routeItems] at h
    cases h
    exact Or.inl hr
  | cons item rest ih =>
    intro c cf uf ua c' h r hr
    simp only [iterator.CDC.routeItems, Bind.bind, Except.bind] at h
    cases hstep : iterator.CDC.routeItem c item cf uf "" ua with
    | error e => rw [hstep] at h; simp at h
    | ok c1 =>
      rw [hstep] at h
      simp only [] at h
      rcases ih c1 cf uf ua c' (by simpa using h) r hr with hmem | hop
      · obtain ⟨r0, hrec, hr0⟩ := routeItem_empty_df_not_delete c item cf uf ua c1 hstep
        rw [hrec] at hmem
        rcases List.mem_append.mp hmem with hmem | hmem
        · exact Or.inl hmem
        · right
          rcases List.mem_singleton.mp hmem with rfl
          exact hr0
      · exact Or.inr hop

/-- C8: for a resource whose deletion-time field name lookup yields the
empty string (search-based resources, and the timestamp resources with no
`DeletedAtFieldName`), a successful CDC load step classifies every routed
item as create or update only — a delete record is never emitted, and the
absent capability is not an error. -/
theorem cdc_no_delete_without_deletion_field
    (env : iterator.Env) (c c' : iterator.CDC)
    (hdf : deletedAtFieldNameOf c.resource = "")
    (h : iterator.CDC.loadRecords env c = Except.ok c') :
    ∀ r ∈ c'.records, r ∈ c.records ∨
      (r.operation = iterator.Operation.create ∨
        r.operation = iterator.Operation.update) := by
  intro r hr
  simp only [iterator.CDC.loadRecords] at h
  cases hts : c.position.timestamp with
  | none => rw [hts] at h; cases h
  | some ts =>
    rw [hts] at h
    simp only [iterator.CDC.processUpdatedItems] at h
    unfold deletedAtFieldNameOf at hdf
    cases htr : hubspot.TimestampResources c.resource with
    | some res =>
      rw [htr] at h hdf
      simp at hdf
      simp only [iterator.CDC.fetchTimestampBasedItems] at h
      rw [hdf] at h
      exact routeItems_empty_df_not_delete _ _ _ _ _ _ h r hr
    | none =>
      rw [htr] at h
      cases hsr : hubspot.SearchResources c.resource with
      | some res =>
        rw [hsr] at h
        simp only [iterator.CDC.fetchSearchBasedItems] at h
        exact routeItems_empty_df_not_delete _ _ _ _ _ _ h r hr
      | none =>
        rw [hsr] at h
        simp at h
        subst h
        exact Or.inl (by simpa using hr)

/-- A remote API environment whose every call returns a single item that
has no deletion-time value. -/
def oneItemEnv : iterator.Env :=
  { now := 1000,
    list := fun _ _ =>
      { results := [[("id", Json.str "9"), ("createdAt", Json.time 200),
          ("updatedAt", Json.time 300)]], paging := none },
    listByNextLink := fun _ =>
      { results := [[("id", Json.str "9"), ("createdAt", Json.time 200),
          ("updatedAt", Json.time 300)]], paging := none },
    searchByUpdatedAfter := fun _ _ _ =>
      { results := [[("id", Json.str "9"), ("createdAt", Json.time 200),
          ("updatedAt", Json.time 300)]], paging := none },
    searchByCreatedBefore := fun _ _ _ _ _ =>
      { results := [[("id", Json.str "9"), ("createdAt", Json.time 200),
          ("updatedAt", Json.time 300)]], paging := none } }

/-- C8 witness: a CDC load of `cms.hubdb.tables` (a resource with no
deletion-time field) routes the returned item as a create, not a
delete. -/
theorem cdc_no_delete_without_deletion_field_witness :
    (⟨iterator.Operation.create, ⟨"cdc", 9, none, some 300⟩, 200, 9,
        some [("id", Json.str "9"), ("createdAt", Json.time 200),
          ("updatedAt", Json.time 300)]⟩ : iterator.Record)
        ∈ ([] : List iterator.Record)
    ∨ ((⟨iterator.Operation.create, ⟨"cdc", 9, none, some 300⟩, 200, 9,
        some [("id", Json.str "9"), ("createdAt", Json.time 200),
          ("updatedAt", Json.time 300)]⟩ : iterator.Record).operation
          = iterator.Operation.create
      ∨ (⟨iterator.Operation.create, ⟨"cdc", 9, none, some 300⟩, 200, 9,
        some [("id", Json.str "9"), ("createdAt", Json.time 200),
          ("updatedAt", Json.time 300)]⟩ : iterator.Record).operation
          = iterator.Operation.update) := by
  have h := cdc_no_delete_without_deletion_field oneItemEnv
    ⟨"cms.hubdb.tables", 5, [], ⟨"cdc", 0, none, some 41⟩⟩
    ⟨"cms.hubdb.tables", 5,
      [⟨iterator.Operation.create, ⟨"cdc", 9, none, some 300⟩, 200, 9,
        some [("id", Json.str "9"), ("createdAt", Json.time 200),
          ("updatedAt", Json.time 300)]⟩],
      ⟨"cdc", 9, none, some 300⟩⟩
    rfl rfl
    ⟨iterator.Operation.create, ⟨"cdc", 9, none, some 300⟩, 200, 9,
      some [("id", Json.str "9"), ("createdAt", Json.time 200),
        ("updatedAt", Json.time 300)]⟩
    (List.mem_singleton.mpr rfl)
  exact h

/-!
## Claim C9 — snapshot created-at metadata
-/

/-- C9 (amended): the snapshot record's created-at metadata is derived
from the item's own `createdAt` field when that field is a parseable
RFC3339 string; the fallback to the current time applies only when the
field is absent or not a string.  A present-but-unparseable string does
not fall back: it fails (see the counterexample for the load-level
failure). -/
theorem snapshot_getItemMetadata_spec (now : Int) (item : Item) :
    (∀ t, findField item hubspot.ResultsFieldCreatedAt = some (Json.time t) →
      iterator.Snapshot.getItemMetadata now item = Except.ok t)
    ∧ (findField item hubspot.ResultsFieldCreatedAt = none →
      iterator.Snapshot.getItemMetadata now item = Except.ok now)
    ∧ (∀ j, findField item hubspot.ResultsFieldCreatedAt = some j →
      (∀ s, j ≠ Json.str s) → (∀ t, j ≠ Json.time t) →
      iterator.Snapshot.getItemMetadata now item = Except.ok now)
    ∧ (∀ s, findField item hubspot.ResultsFieldCreatedAt = some (Json.str s) →
      iterator.Snapshot.getItemMetadata now item = Except.error Err.parseCreatedAt) := by
  refine ⟨fun t h => ?_, fun h => ?_, fun j h hs ht => ?_, fun s h => ?_⟩
  · simp [iterator.Snapshot.getItemMetadata, h]
  · simp [iterator.Snapshot.getItemMetadata, h]
  · simp only [iterator.Snapshot.getItemMetadata, h]
    cases j with
    | str s => exact absurd rfl (hs s)
    | time t => exact absurd rfl (ht t)
    | null => rfl
    | bool b => rfl
    | num n => rfl
    | arr xs => rfl
    | obj fs => rfl
  · simp [iterator.Snapshot.getItemMetadata, h]

/-- C9 counterexample: a `createdAt` field holding a string that does not
parse as RFC3339 fails `getItemMetadata` — and fails the whole snapshot
load step — instead of falling back to the current time as the claim
states. -/
theorem snapshot_getItemMetadata_counterexample :
    iterator.Snapshot.getItemMetadata 999 [("createdAt", Json.str "not-a-date")]
      = Except.error Err.parseCreatedAt
    ∧ iterator.Snapshot.loadRecords
        { now := 999,
          list := fun _ _ =>
            { results := [[("id", Json.str "9"), ("created", Json.time 200),
                ("updated", Json.time 300), ("createdAt", Json.str "not-a-date")]],
              paging := none },
          listByNextLink := fun _ => { results := [], paging := none },
          searchByUpdatedAfter := fun _ _ _ => { results := [], paging := none },
          searchByCreatedBefore := fun _ _ _ _ _ => { results := [], paging := none } }
        ⟨"cms.blogs.authors", 5, [], ⟨"snapshot", 0, some 1000, none⟩, [], 1000, "", false⟩
      = Except.error Err.parseCreatedAt :=
  ⟨rfl, rfl⟩

/-- C9 witness: the metadata at a parseable field, an absent field, and a
non-string field. -/
theorem snapshot_getItemMetadata_spec_witness :
    iterator.Snapshot.getItemMetadata 999 [("createdAt", Json.time 200)]
      = Except.ok 200
    ∧ iterator.Snapshot.getItemMetadata 999 [("id", Json.str "9")]
      = Except.ok 999
    ∧ iterator.Snapshot.getItemMetadata 999 [("createdAt", Json.num 5)]
      = Except.ok 999 := by
  refine ⟨?_, ?_, ?_⟩
  · exact (snapshot_getItemMetadata_spec 999 [("createdAt", Json.time 200)]).1 200 rfl
  · exact (snapshot_getItemMetadata_spec 999 [("id", Json.str "9")]).2.1 rfl
  · exact (snapshot_getItemMetadata_spec 999 [("createdAt", Json.num 5)]).2.2.1
      (Json.num 5) rfl (fun s h => by cases h) (fun t h => by cases h)

/-!
## Claim C6 — the position-mode invariant
-/

/-- The spec's Position invariant: Snapshot mode implies the initial
timestamp is set, CDC mode implies the watermark timestamp is set. -/
abbrev PositionInvariant (p : iterator.Position) : Prop :=
  (p.mode = iterator.SnapshotPositionMode → p.initialTimestamp.isSome)
  ∧ (p.mode = iterator.CDCPositionMode → p.timestamp.isSome)

/-- The invariant over a whole Snapshot iterator state: it holds of the
held position and of the position carried by every queued record. -/
abbrev SnapshotStateInv (s : iterator.Snapshot) : Prop :=
  PositionInvariant s.position ∧ ∀ r ∈ s.records, PositionInvariant r.position

/-- The invariant over a whole CDC iterator state. -/
abbrev CDCStateInv (c : iterator.CDC) : Prop :=
  PositionInvariant c.position ∧ ∀ r ∈ c.records, PositionInvariant r.position

/-- A position produced by `CDC.getItemPosition` is CDC-mode with the
given timestamp and no initial timestamp. -/
theorem cdc_getItemPosition_shape (item : Item) (ts : Int) (pos : iterator.Position)
    (h : iterator.CDC.getItemPosition item ts = Except.ok pos) :
    pos = ⟨iterator.CDCPositionMode, pos.itemID, none, some ts⟩ := by
  simp only [iterator.CDC.getItemPosition] at h
  cases hf : findField item hubspot.ResultsFieldID with
  | none => rw [hf] at h; simp at h
  | some j =>
    rw [hf] at h
    cases j with
    | str s =>
      simp only [] at h
      cases ha : atoi s with
      | none => simp [ha] at h
      | some n => simp [ha] at h; rw [← h]
    | time t => simp at h
    | null => simp at h
    | bool b => simp at h
    | num n => simp at h
    | arr xs => simp at h
    | obj fs => simp at h

/-- A position produced by `Snapshot.getItemPosition` carries the given
timestamp. -/
theorem snapshot_getItemPosition_shape (item : Item) (ts : Int) (pos : iterator.Position)
    (h : iterator.Snapshot.getItemPosition item ts = Except.ok pos) :
    pos = ⟨"", pos.itemID, none, some ts⟩ := by
  simp only [iterator.Snapshot.getItemPosition] at h
  cases hf : findField item hubspot.ResultsFieldID with
  | none => rw [hf] at h; simp at h
  | some j =>
    rw [hf] at h
    cases j with
    | str s =>
      simp only [] at h
      cases ha : atoi s with
      | none => simp [ha] at h
      | some n => simp [ha] at h; rw [← h]
    | time t => simp at h
    | null => simp at h
    | bool b => simp at h
    | num n => simp at h
    | arr xs => simp at h
    | obj fs => simp at h

/-- The record `CDC.getRecord` builds always carries the position it is
given. -/
theorem cdc_getRecord_position (pos : iterator.Position) (item : Item)
    (ca del ua m : Int) :
    (iterator.CDC.getRecord pos item ca del ua m).position = pos := by
  simp only [iterator.CDC.getRecord]
  split
  · rfl
  · split <;> rfl

/-- Inversion of a successful `routeItem`: the new position comes from
`getItemPosition`, and exactly one record carrying it is appended. -/
theorem cdc_routeItem_ok_shape (c : iterator.CDC) (item : Item)
    (cf uf df : String) (ua : Int) (c' : iterator.CDC)
    (h : iterator.CDC.routeItem c item cf uf df ua = Except.ok c') :
    ∃ upd pos r, iterator.CDC.getItemPosition item upd = Except.ok pos ∧
      c'.position = pos ∧ c'.records = c.records ++ [r] ∧ r.position = pos := by
  simp only [iterator.CDC.routeItem, Bind.bind, Except.bind] at h
  cases hca : hubspot.GetTimeField item cf with
  | error e => simp [hca] at h
  | ok ca =>
    cases hupd : hubspot.GetTimeField item uf with
    | error e => simp [hca, hupd] at h
    | ok upd =>
      by_cases hdf : df = ""
      · simp only [Pure.pure, Except.pure] at h
        cases hpos : iterator.CDC.getItemPosition item upd with
        | error e => simp [hca, hupd, hdf, hpos] at h
        | ok pos =>
          simp [hca, hupd, hdf, hpos] at h
          subst h
          exact ⟨upd, pos, _, hpos, rfl, rfl, cdc_getRecord_position ..⟩
      · cases hdel : hubspot.GetTimeField item df with
        | error e => simp [hca, hupd, hdf, hdel] at h
        | ok del =>
          cases hpos : iterator.CDC.getItemPosition item upd with
          | error e => simp [hca, hupd, hdf, hdel, hpos] at h
          | ok pos =>
            simp [hca, hupd, hdf, hdel, hpos] at h
            subst h
            exact ⟨upd, pos, _, hpos, rfl, rfl, cdc_getRecord_position ..⟩

/-- `routeItems` preserves the CDC state invariant: every position it
installs or embeds in a record comes from `getItemPosition` and is
CDC-mode with a set timestamp. -/
theorem cdc_routeItems_inv (items : List Item) :
    ∀ (c : iterator.CDC) (cf uf df : String) (ua : Int) (c' : iterator.CDC),
    CDCStateInv c →
    iterator.CDC.routeItems c items cf uf df ua = Except.ok c' →
    CDCStateInv c' := by
  induction items with
  | nil =>
    intro c cf uf df ua c' hc h
    simp only [iterator.CDC.routeItems] at h
    cases h
    exact hc
  | cons item rest ih =>
    intro c cf uf df ua c' hc h
    simp only [iterator.CDC.routeItems, Bind.bind, Except.bind] at h
    cases hstep : iterator.CDC.routeItem c item cf uf df ua with
    | error e => rw [hstep] at h; simp at h
    | ok c1 =>
      rw [hstep] at h
      refine ih c1 cf uf df ua c' ?_ (by simpa using h)
      obtain ⟨upd, pos, r, hpos, hcpos, hcrec, hrpos⟩ :=
        cdc_routeItem_ok_shape c item cf uf df ua c1 hstep
      have hshape := cdc_getItemPosition_shape item upd pos hpos
      have hinv : PositionInvariant pos := by
        rw [hshape]
        exact ⟨fun hmode => by
          simp [iterator.CDCPositionMode, iterator.SnapshotPositionMode] at hmode,
          fun _ => rfl⟩
      refine ⟨hcpos ▸ hinv, ?_⟩
      intro r2 hr2
      rw [hcrec] at hr2
      rcases List.mem_append.mp hr2 with hr2 | hr2
      · exact hc.2 r2 hr2
      · rcases List.mem_singleton.mp hr2 with rfl
        exact hrpos ▸ hinv

/-- The CDC load step preserves the state invariant. -/
theorem cdc_loadRecords_inv (env : iterator.Env) (c c' : iterator.CDC)
    (hc : CDCStateInv c)
    (h : iterator.CDC.loadRecords env c = Except.ok c') :
    CDCStateInv c' := by
  simp only [iterator.CDC.loadRecords] at h
  cases hts : c.position.timestamp with
  | none => rw [hts] at h; cases h
  | some ts =>
    rw [hts] at h
    have hshift : CDCStateInv
        { c with position := { c.position with timestamp := some (ts + 1) } } := by
      refine ⟨⟨fun hmode => hc.1.1 hmode, fun _ => rfl⟩, hc.2⟩
    simp only [iterator.CDC.processUpdatedItems] at h
    cases htr : hubspot.TimestampResources c.resource with
    | some res =>
      rw [htr] at h
      simp only [iterator.CDC.fetchTimestampBasedItems] at h
      exact cdc_routeItems_inv _ _ _ _ _ _ _ hshift h
    | none =>
      rw [htr] at h
      cases hsr : hubspot.SearchResources c.resource with
      | some res =>
        rw [hsr] at h
        simp only [iterator.CDC.fetchSearchBasedItems] at h
        exact cdc_routeItems_inv _ _ _ _ _ _ _ hshift h
      | none =>
        rw [hsr] at h
        simp at h
        subst h
        exact hshift

/-- The snapshot item loop preserves the state invariant: each step only
rewrites the position's `itemID` and `timestamp` (to a set value), keeping
mode and initial timestamp. -/
theorem snapshot_processItems_inv (items : List Item) :
    ∀ (env : iterator.Env) (s s' : iterator.Snapshot),
    SnapshotStateInv s →
    iterator.Snapshot.processItems env s items = Except.ok s' →
    SnapshotStateInv s' := by
  induction items with
  | nil =>
    intro env s s' hs h
    simp only [iterator.Snapshot.processItems] at h
    cases h
    exact hs
  | cons item rest ih =>
    intro env s s' hs h
    simp only [iterator.Snapshot.processItems, Bind.bind, Except.bind] at h
    cases hca : hubspot.GetCreatedAt item s.resource with
    | error e => simp [hca] at h
    | ok ca =>
      cases hpos : iterator.Snapshot.getItemPosition item ca with
      | error e => simp [hca, hpos] at h
      | ok newPos =>
        cases hmeta : iterator.Snapshot.getItemMetadata env.now item with
        | error e => simp [hca, hpos, hmeta] at h
        | ok m =>
          simp only [hca, hpos, hmeta] at h
          have hshape := snapshot_getItemPosition_shape item ca newPos hpos
          have hP : PositionInvariant
              { s.position with timestamp := newPos.timestamp, itemID := newPos.itemID } :=
            ⟨fun hmode => hs.1.1 hmode, fun _ => by rw [hshape]; rfl⟩
          refine ih env
            { s with
              position :=
                { s.position with
                  timestamp := newPos.timestamp, itemID := newPos.itemID },
              records := s.records ++
                [⟨iterator.Operation.snapshot,
                  { s.position with
                    timestamp := newPos.timestamp, itemID := newPos.itemID },
                  m, newPos.itemID, some item⟩] }
            s' ⟨hP, ?_⟩ (by simpa using h)
          intro r hr
          rcases List.mem_append.mp hr with hr | hr
          · exact hs.2 r hr
          · rcases List.mem_singleton.mp hr with rfl
            exact hP

/-- The snapshot load step preserves the state invariant (reading a page
only rewrites `hasMoreItems` and `nextLink`). -/
theorem snapshot_loadRecords_inv (env : iterator.Env) (s s' : iterator.Snapshot)
    (hs : SnapshotStateInv s)
    (h : iterator.Snapshot.loadRecords env s = Except.ok s') :
    SnapshotStateInv s' := by
  simp only [iterator.Snapshot.loadRecords, Bind.bind, Except.bind] at h
  cases hresp : iterator.Snapshot.listItems env s with
  | error e => simp [hresp] at h
  | ok resp =>
    simp only [hresp] at h
    exact snapshot_processItems_inv resp.results env
      { s with
        hasMoreItems := resp.paging.isSome,
        nextLink := (match resp.paging with | some p => p.link | none => "") }
      s' ⟨hs.1, hs.2⟩ (by simpa using h)

/-- C6: the Position invariant (Snapshot mode implies a set initial
timestamp, CDC mode implies a set watermark) is established by each
sub-iterator's construction-time position resolution — given that any
resume position handed in satisfies it, which is true of every position
this connector emits — and is preserved, for the held position and for the
position of every queued record, by each sub-iterator's load step. -/
theorem position_mode_invariant :
    (∀ (now : Int) (pos : Option iterator.Position),
      (pos = none ∨ ∃ p, pos = some p ∧ PositionInvariant p) →
      PositionInvariant (iterator.snapshotInit now pos).2)
    ∧ (∀ (now : Int) (pos : Option iterator.Position),
      (pos = none ∨ ∃ p, pos = some p ∧ PositionInvariant p) →
      PositionInvariant (iterator.cdcInitPosition pos now))
    ∧ (∀ (env : iterator.Env) (s s' : iterator.Snapshot),
      SnapshotStateInv s →
      iterator.Snapshot.loadRecords env s = Except.ok s' →
      SnapshotStateInv s')
    ∧ (∀ (env : iterator.Env) (c c' : iterator.CDC),
      CDCStateInv c →
      iterator.CDC.loadRecords env c = Except.ok c' →
      CDCStateInv c') := by
  refine ⟨fun now pos hpos => ?_, fun now pos hpos => ?_,
    snapshot_loadRecords_inv, cdc_loadRecords_inv⟩
  · rcases hpos with rfl | ⟨p, rfl, hp⟩
    · exact ⟨fun _ => rfl, fun h => by
        simp [iterator.snapshotInit, iterator.SnapshotPositionMode,
          iterator.CDCPositionMode] at h⟩
    · cases hit : p.initialTimestamp with
      | some t => simpa [iterator.snapshotInit, hit] using hp
      | none =>
        simp only [iterator.snapshotInit, hit]
        exact ⟨fun _ => rfl, fun h => by
          simp [iterator.SnapshotPositionMode, iterator.CDCPositionMode] at h⟩
  · rcases hpos with rfl | ⟨p, rfl, hp⟩
    · exact ⟨fun h => by
        simp [iterator.cdcInitPosition, iterator.freshCDCPosition,
          iterator.SnapshotPositionMode, iterator.CDCPositionMode] at h,
        fun _ => rfl⟩
    · by_cases hts : p.timestamp.isSome
      · simpa [iterator.cdcInitPosition, hts] using hp
      · have hfresh : iterator.cdcInitPosition (some p) now
            = iterator.freshCDCPosition now := by
          simp [iterator.cdcInitPosition, hts]
        rw [hfresh]
        exact ⟨fun h => by
          simp [iterator.freshCDCPosition, iterator.SnapshotPositionMode,
            iterator.CDCPositionMode] at h,
          fun _ => rfl⟩

/-- C6 witness: the invariant at concrete constructions and load
steps. -/
theorem position_mode_invariant_witness :
    PositionInvariant (iterator.snapshotInit 1000 none).2
    ∧ PositionInvariant (iterator.cdcInitPosition none 1000)
    ∧ SnapshotStateInv
        ⟨"cms.hubdb.tables", 5, [], ⟨"snapshot", 0, some 1000, none⟩, [], 1000, "", false⟩
    ∧ CDCStateInv ⟨"cms.hubdb.tables", 5, [], ⟨"cdc", 0, none, some 42⟩⟩ := by
  have hsnap : SnapshotStateInv
      ⟨"cms.hubdb.tables", 5, [], ⟨"snapshot", 0, some 1000, none⟩, [], 1000, "", false⟩ :=
    ⟨⟨fun _ => rfl, fun h => absurd h (by decide)⟩,
      fun r hr => absurd hr (List.not_mem_nil r)⟩
  have hcdc : CDCStateInv ⟨"cms.hubdb.tables", 5, [], ⟨"cdc", 0, none, some 41⟩⟩ :=
    ⟨⟨fun h => absurd h (by decide), fun _ => rfl⟩,
      fun r hr => absurd hr (List.not_mem_nil r)⟩
  refine ⟨position_mode_invariant.1 1000 none (Or.inl rfl),
    position_mode_invariant.2.1 1000 none (Or.inl rfl),
    position_mode_invariant.2.2.1 emptyEnv _ _ hsnap rfl,
    position_mode_invariant.2.2.2 emptyEnv _ _ hcdc rfl⟩

/-!
## Claim C7 — Combined construction dispatch
-/

/-- C7: `NewCombined` dispatches exactly as follows: with snapshotting
enabled and no resume position or a Snapshot-mode one, it builds a
Snapshot iterator; with snapshotting disabled, or a CDC-mode position, it
builds a CDC iterator seeded with the supplied position; with snapshotting
enabled and a non-nil position whose mode is neither Snapshot nor CDC, it
fails with the invalid-position-mode error. -/
theorem newCombined_dispatch :
    (∀ (env : iterator.Env) (params : iterator.CombinedParams),
      params.snapshot = true →
      (params.position = none ∨ ∃ p, params.position = some p ∧
        p.mode = iterator.SnapshotPositionMode) →
      iterator.NewCombined env params =
        (iterator.NewSnapshot env
          { resource := params.resource, bufferSize := params.bufferSize,
            position := params.position,
            extraProperties := params.extraProperties }).map
          (fun s =>
            { snapshot := some s, cdc := none, resource := params.resource,
              bufferSize := params.bufferSize,
              extraProperties := params.extraProperties }))
    ∧ (∀ (env : iterator.Env) (params : iterator.CombinedParams),
      (params.snapshot = false ∨ ∃ p, params.position = some p ∧
        p.mode = iterator.CDCPositionMode) →
      iterator.NewCombined env params =
        (iterator.NewCDC env
          { resource := params.resource, bufferSize := params.bufferSize,
            position := params.position }).map
          (fun c =>
            { snapshot := none, cdc := some c, resource := params.resource,
              bufferSize := params.bufferSize,
              extraProperties := params.extraProperties }))
    ∧ (∀ (env : iterator.Env) (params : iterator.CombinedParams)
        (p : iterator.Position),
      params.snapshot = true →
      params.position = some p →
      p.mode ≠ iterator.SnapshotPositionMode →
      p.mode ≠ iterator.CDCPositionMode →
      iterator.NewCombined env params =
        Except.error (Err.invalidPositionMode p.mode)) := by
  refine ⟨fun env params h1 h2 => ?_, fun env params h => ?_,
    fun env params p h1 hp hm1 hm2 => ?_⟩
  · rcases h2 with hnone | ⟨p, hp, hm⟩
    · simp [iterator.NewCombined, h1, hnone]
    · simp [iterator.NewCombined, h1, hp, iterator.positionModeIs, hm,
        iterator.SnapshotPositionMode]
  · rcases h with hflag | ⟨p, hp, hm⟩
    · simp [iterator.NewCombined, hflag]
    · cases h1 : params.snapshot
      · simp [iterator.NewCombined, h1]
      · simp [iterator.NewCombined, h1, hp, iterator.positionModeIs, hm,
          iterator.SnapshotPositionMode, iterator.CDCPositionMode]
  · simp [iterator.NewCombined, h1, hp, iterator.positionModeIs, hm1, hm2]

/-- C7 witness: the three dispatch outcomes at concrete parameters. -/
theorem newCombined_dispatch_witness :
    (iterator.NewCombined emptyEnv ⟨"r", 5, none, [], true⟩ =
      (iterator.NewSnapshot emptyEnv ⟨"r", 5, none, []⟩).map
        (fun s => ⟨some s, none, "r", 5, []⟩))
    ∧ (iterator.NewCombined emptyEnv ⟨"r", 5, none, [], false⟩ =
      (iterator.NewCDC emptyEnv ⟨"r", 5, none⟩).map
        (fun c => ⟨none, some c, "r", 5, []⟩))
    ∧ (iterator.NewCombined emptyEnv ⟨"r", 5, some ⟨"bogus", 0, none, none⟩, [], true⟩ =
      Except.error (Err.invalidPositionMode "bogus")) := by
  refine ⟨?_, ?_, ?_⟩
  · exact newCombined_dispatch.1 emptyEnv ⟨"r", 5, none, [], true⟩ rfl (Or.inl rfl)
  · exact newCombined_dispatch.2.1 emptyEnv ⟨"r", 5, none, [], false⟩ (Or.inl rfl)
  · exact newCombined_dispatch.2.2 emptyEnv ⟨"r", 5, some ⟨"bogus", 0, none, none⟩, [], true⟩
      ⟨"bogus", 0, none, none⟩ rfl rfl (by decide) (by decide)

/-!
## Claim C10 — resume position without an initial timestamp
-/

/-- C10: when `NewSnapshot` receives a non-nil resume position whose
`initialTimestamp` is absent, the supplied position is discarded wholesale
and replaced by a fresh `{mode=Snapshot, initialTimestamp=now}` position —
in particular the supplied `itemID` is lost — so the first search-based
page uses `after = 0 + 1`, restarting the id lower bound from zero instead
of from the last processed item. -/
theorem snapshot_resume_without_initialTimestamp
    (env : iterator.Env) (params : iterator.SnapshotParams) (p : iterator.Position)
    (hp : params.position = some p)
    (hit : p.initialTimestamp = none) :
    iterator.snapshotInit env.now params.position
      = (env.now, ⟨iterator.SnapshotPositionMode, 0, some env.now, none⟩)
    ∧ (iterator.snapshotInitState env params).position.itemID = 0
    ∧ iterator.Snapshot.listSearchBasedItems env (iterator.snapshotInitState env params)
      = env.searchByCreatedBefore params.resource env.now params.bufferSize
          (0 + 1) params.extraProperties := by
  have hinit : iterator.snapshotInit env.now params.position
      = (env.now, ⟨iterator.SnapshotPositionMode, 0, some env.now, none⟩) := by
    simp [iterator.snapshotInit, hp, hit]
  refine ⟨hinit, ?_, ?_⟩
  · simp [iterator.snapshotInitState, hinit]
  · simp [iterator.Snapshot.listSearchBasedItems, iterator.snapshotInitState, hinit]

/-- C10 witness: a resume position carrying `itemID = 42` but no initial
timestamp is replaced entirely; the search lower bound is `1`, not
`43`. -/
theorem snapshot_resume_without_initialTimestamp_witness :
    iterator.snapshotInit emptyEnv.now (some ⟨"snapshot", 42, none, some 77⟩)
      = (emptyEnv.now, ⟨iterator.SnapshotPositionMode, 0, some emptyEnv.now, none⟩)
    ∧ (iterator.snapshotInitState emptyEnv
        ⟨"crm.companies", 5, some ⟨"snapshot", 42, none, some 77⟩, []⟩).position.itemID = 0
    ∧ iterator.Snapshot.listSearchBasedItems emptyEnv
        (iterator.snapshotInitState emptyEnv
          ⟨"crm.companies", 5, some ⟨"snapshot", 42, none, some 77⟩, []⟩)
      = emptyEnv.searchByCreatedBefore "crm.companies" emptyEnv.now 5 (0 + 1) [] :=
  snapshot_resume_without_initialTimestamp emptyEnv
    ⟨"crm.companies", 5, some ⟨"snapshot", 42, none, some 77⟩, []⟩
    ⟨"snapshot", 42, none, some 77⟩ rfl rfl

/-!
## Claim C2 — the snapshot-to-CDC handoff
-/

/-- C2: when `HasNext` finds the active Snapshot iterator exhausted, it
synchronously constructs a CDC iterator seeded with a position whose
timestamp is the snapshot's `initialTimestamp` exactly (and `NewCDC` keeps
such a seed as-is instead of replacing it with the current time), discards
the Snapshot iterator, and re-delegates `HasNext` to the new CDC iterator;
and once the snapshot sub-iterator is gone, neither `HasNext` nor `Next`
ever re-activates it. -/
theorem combined_hasNext_switch :
    (∀ (env : iterator.Env) (c : iterator.Combined) (s : iterator.Snapshot)
        (cdc : iterator.CDC),
      c.snapshot = some s →
      iterator.Snapshot.hasNextB s = false →
      iterator.NewCDC env
          ⟨c.resource, c.bufferSize,
            some ⟨iterator.CDCPositionMode, 0, none, some s.initialTimestamp⟩⟩
        = Except.ok cdc →
      iterator.Combined.HasNext env c =
        Except.ok (iterator.CDC.hasNextB cdc,
          { c with snapshot := none, cdc := some cdc }))
    ∧ (∀ (now ts : Int),
      iterator.cdcInitPosition
          (some ⟨iterator.CDCPositionMode, 0, none, some ts⟩) now
        = ⟨iterator.CDCPositionMode, 0, none, some ts⟩)
    ∧ (∀ (env : iterator.Env) (c : iterator.Combined),
      c.snapshot = none →
      (∀ (b : Bool) (c' : iterator.Combined),
        iterator.Combined.HasNext env c = Except.ok (b, c') → c'.snapshot = none)
      ∧ (∀ (r : iterator.Record) (c' : iterator.Combined),
        iterator.Combined.Next c = Except.ok (r, c') → c'.snapshot = none)) := by
  refine ⟨fun env c s cdc hsnap hhn hcdc => ?_, fun now ts => rfl,
    fun env c hsnap => ⟨fun b c' h => ?_, fun r c' h => ?_⟩⟩
  · simp only [iterator.Combined.HasNext, hsnap, hhn, Bind.bind, Except.bind,
      iterator.Combined.switchToCDCIterator, hcdc]
    simp
  · simp only [iterator.Combined.HasNext, hsnap] at h
    cases hcdc : c.cdc with
    | some cdc =>
      rw [hcdc] at h
      simp at h
      obtain ⟨h1, h2⟩ := h
      subst h2
      exact hsnap
    | none =>
      rw [hcdc] at h
      simp at h
      obtain ⟨h1, h2⟩ := h
      subst h2
      exact hsnap
  · simp only [iterator.Combined.Next, hsnap] at h
    cases hcdc : c.cdc with
    | some cdc =>
      rw [hcdc] at h
      cases hrec : cdc.records with
      | nil => simp [hrec] at h
      | cons r0 rest =>
        simp [hrec] at h
        obtain ⟨h1, h2⟩ := h
        subst h2
        rfl
    | none =>
      rw [hcdc] at h
      simp at h

/-- C2 witness: the handoff at a concrete exhausted snapshot over an
unknown resource — the constructed CDC iterator is seeded with the
snapshot's initial timestamp 500, not the environment's clock 1000. -/
theorem combined_hasNext_switch_witness :
    iterator.Combined.HasNext emptyEnv
        ⟨some ⟨"x", 5, [], ⟨"snapshot", 0, some 500, none⟩, [], 500, "", false⟩,
          none, "x", 5, []⟩
      = Except.ok (false,
          ⟨none, some ⟨"x", 5, [], ⟨"cdc", 0, none, some 501⟩⟩, "x", 5, []⟩)
    ∧ iterator.cdcInitPosition (some ⟨"cdc", 0, none, some 500⟩) 1000
      = ⟨"cdc", 0, none, some 500⟩
    ∧ (⟨none, some ⟨"x", 5, [], ⟨"cdc", 0, none, some 501⟩⟩, "x", 5, []⟩ :
        iterator.Combined).snapshot = none := by
  refine ⟨?_, combined_hasNext_switch.2.1 1000 500, ?_⟩
  · exact combined_hasNext_switch.1 emptyEnv
      ⟨some ⟨"x", 5, [], ⟨"snapshot", 0, some 500, none⟩, [], 500, "", false⟩,
        none, "x", 5, []⟩
      ⟨"x", 5, [], ⟨"snapshot", 0, some 500, none⟩, [], 500, "", false⟩
      ⟨"x", 5, [], ⟨"cdc", 0, none, some 501⟩⟩ rfl rfl rfl
  · exact (combined_hasNext_switch.2.2 emptyEnv
      ⟨none, some ⟨"x", 5, [], ⟨"cdc", 0, none, some 501⟩⟩, "x", 5, []⟩ rfl).1 false
      ⟨none, some ⟨"x", 5, [], ⟨"cdc", 0, none, some 501⟩⟩, "x", 5, []⟩ rfl
